import Mathlib

/-!
Verification development for the localbin paste server (localbin.ts, final
revision: the version with expiration support, debounced saves and atomic
replace-on-write persistence).

Modelling conventions:
* JavaScript Date values are represented by their millisecond epoch value
  (an Int).  An ISO-8601 timestamp string produced by Date.toISOString is
  represented by the millisecond value it denotes, since toISOString and
  Date parsing form an exact bijection at millisecond precision.  The
  inductive TimeVal distinguishes a real Date object from a raw string
  holding an ISO timestamp, because the source treats the two differently.
* The JS Map is modelled as an insertion-ordered association list with
  Map.set replacing in place (JS Map semantics).
* Math.random-driven id generation is modelled by an explicit stream of
  draws, one Fin 36 per character (the value of Math.floor(r * 36)).
* File-system effects are modelled by explicit state (DiskState) and an
  outcome parameter enumerating the points at which the I/O sequence of
  savePastes can fail.
-/

namespace Localbin

/-- Value of a timestamp-like field in memory: either a genuine JS Date
(millisecond epoch value) or a raw ISO-8601 string read back from JSON,
represented by the millisecond value its text denotes. -/
inductive TimeVal where
  | date (ms : Int)
  | isoStr (ms : Int)
deriving DecidableEq, Repr

/-- Millisecond value denoted by a TimeVal.  For a date this is
Date.getTime; for a raw ISO string it is the instant the text denotes. -/
def TimeVal.ms : TimeVal → Int
  | TimeVal.date m => m
  | TimeVal.isoStr m => m

/-- One in-memory paste: the record type of the pastes Map,
{ content: string; created: Date; expiresAt?: Date } (where after a reload
from disk expiresAt can in fact be a raw string, hence TimeVal). -/
structure Paste where
  content : String
  created : TimeVal
  expiresAt : Option TimeVal
deriving DecidableEq, Repr

/-- The in-memory index: the global pastes Map, as an insertion-ordered
association list. -/
abbrev Store := List (String × Paste)

/-- Model of pastes.has(id). -/
def mapHas : Store → String → Bool
  | [], _ => false
  | e :: rest, k => e.1 == k || mapHas rest k

/-- Model of pastes.get(id). -/
def mapGet : Store → String → Option Paste
  | [], _ => none
  | e :: rest, k => if e.1 == k then some e.2 else mapGet rest k

/-- Model of pastes.set(id, v): replaces in place when the key is present
(JS Map keeps the original insertion position), otherwise appends. -/
def mapSet : Store → String → Paste → Store
  | [], k, v => [(k, v)]
  | e :: rest, k, v => if e.1 == k then (k, v) :: rest else e :: mapSet rest k v

/-- Model of pastes.delete(id). -/
def mapDelete (m : Store) (k : String) : Store :=
  m.filter (fun e => e.1 != k)

/-- The alphabet of generateId:
"abcdefghijklmnopqrstuvwxyz0123456789" (36 symbols). -/
def idChars : List Char := "abcdefghijklmnopqrstuvwxyz0123456789".toList

/-- Model of generateId(length): builds the id character by character,
consuming one random draw (the value of Math.floor(Math.random()*36)) per
character.  The source always calls it with the default length 6. -/
def generateId (draws : List (Fin 36)) (len : Nat) : String :=
  String.mk ((draws.take len).map (fun i => idChars.get (Fin.cast (by decide) i)))

/-- Model of the JS relational comparison paste.expiresAt <= now performed
by the sweeper.  When expiresAt is a Date the comparison is numeric on
millisecond values.  When expiresAt is a raw ISO string (as happens after
a reload from disk) JS coerces the string with ToNumber, which yields NaN
for ISO-8601 text (it always contains dashes and a T), and any comparison
against NaN is false. -/
def jsTimeLe (t : TimeVal) (nowMs : Int) : Bool :=
  match t with
  | TimeVal.date ms => decide (ms ≤ nowMs)
  | TimeVal.isoStr _ => false

/-- Model of the sweeper guard paste.expiresAt && paste.expiresAt <= now:
an absent expiresAt is falsy; a present one (a Date, or a non-empty ISO
string, both truthy) is compared against now. -/
def jsExpiresCheck (p : Paste) (nowMs : Int) : Bool :=
  match p.expiresAt with
  | some t => jsTimeLe t nowMs
  | none => false

/-- Model of one pass of cleanupExpiredPastes over the index: every entry
whose expiresAt passes the guard is deleted.  (The hourly rescheduling via
setTimeout and the debounced save that follows a non-empty sweep are
effects outside this state transformation.) -/
def cleanupExpiredPastes (m : Store) (nowMs : Int) : Store :=
  m.filter (fun e => !(jsExpiresCheck e.2 nowMs))

/-- Modelled from the spec: a paste whose expiresAt is present and ≤ now is
logically expired.  This is the claim-side notion of expiry, used only to
state what the spec demands of read paths; the source's own comparison is
jsExpiresCheck. -/
def specIsExpired (p : Paste) (nowMs : Int) : Bool :=
  match p.expiresAt with
  | some t => decide (t.ms ≤ nowMs)
  | none => false

/-- One record of the snapshot file pastes.json: JSON serializes content
as a string, created as the ISO text of the Date (represented by its
millisecond value), and expiresAt, when present, likewise. -/
structure EncPaste where
  content : String
  created : Int
  expiresAt : Option Int
deriving DecidableEq, Repr

/-- The decoded JSON object of the snapshot file: Object.entries order. -/
abbrev Snapshot := List (String × EncPaste)

/-- Model of JSON.stringify on one paste record
(Object.fromEntries(pastes.entries()) then stringify): a Date field
serializes to its ISO text, a raw ISO string field serializes to the same
text, so both map to the millisecond value. -/
def encodePaste (p : Paste) : EncPaste :=
  { content := p.content
    created := p.created.ms
    expiresAt := p.expiresAt.map TimeVal.ms }

/-- Model of the serialization performed inside savePastes:
Object.fromEntries(pastes.entries()) followed by JSON.stringify. -/
def encodeEntries (m : Store) : Snapshot :=
  m.map (fun e => (e.1, encodePaste e.2))

/-- Model of the per-record reconstruction in loadPastes:
{ ...paste, created: new Date(paste.created) }.  Only created is rebuilt
as a Date; an expiresAt field present in the file is spread through
unchanged and therefore stays the raw decoded string. -/
def decodeRecord (r : EncPaste) : Paste :=
  { content := r.content
    created := TimeVal.date r.created
    expiresAt := r.expiresAt.map TimeVal.isoStr }

/-- Model of the Map reconstruction in loadPastes:
new Map(Object.entries(data).map(([id, paste]) => [id, ...])). -/
def decodeEntries (s : Snapshot) : Store :=
  s.map (fun e => (e.1, decodeRecord e.2))

/-- Outcome of reading and parsing the snapshot file at startup, the
platform part of loadPastes: the file can be absent (Deno NotFound), the
read can fail otherwise, JSON.parse can throw on malformed text, or the
parse succeeds with a record per paste. -/
inductive SnapFile where
  | missing
  | unreadable
  | malformed
  | wellFormed (records : Snapshot)
deriving DecidableEq

/-- Result of loadPastes: the store it leaves behind and whether it logged
a load error on the console. -/
structure LoadResult where
  store : Store
  loggedError : Bool
deriving DecidableEq, Repr

/-- Model of loadPastes: any thrown error is caught locally, the index is
reset to an empty Map and the function returns normally; the error is
logged unless it is Deno.errors.NotFound (first run). -/
def loadPastes : SnapFile → LoadResult
  | SnapFile.missing => { store := [], loggedError := false }
  | SnapFile.unreadable => { store := [], loggedError := true }
  | SnapFile.malformed => { store := [], loggedError := true }
  | SnapFile.wellFormed rs => { store := decodeEntries rs, loggedError := false }

/-- On-disk state relevant to savePastes: the contents of pastes.json and
of the temporary file pastes.json.temp (none = file absent).  File content
is represented structurally by the snapshot it decodes to; byte-identity
of the claims corresponds to equality of this representation. -/
structure DiskState where
  storage : Option Snapshot
  temp : Option Snapshot
deriving DecidableEq, Repr

/-- The points at which the I/O sequence of savePastes (write temp file,
then rename it over the storage file) can fail.  A failed temp write may
leave arbitrary partial content in the temp file. -/
inductive WriteOutcome where
  | success
  | failAtTempWrite (leftover : Option Snapshot)
  | failAtRename
deriving DecidableEq

/-- Result of savePastes: the disk state it leaves behind and whether it
logged a save error.  The function always returns normally: the try/catch
swallows every error. -/
structure SaveResult where
  disk : DiskState
  loggedError : Bool
deriving DecidableEq, Repr

/-- Model of savePastes: encode the current index, write the encoding to
STORAGE_FILE.temp, then Deno.rename the temp file over STORAGE_FILE (the
only committing step).  Failures are caught and logged, never rethrown. -/
def savePastes (d : DiskState) (m : Store) : WriteOutcome → SaveResult
  | WriteOutcome.success =>
      { disk := { storage := some (encodeEntries m), temp := none }
        loggedError := false }
  | WriteOutcome.failAtTempWrite leftover =>
      { disk := { storage := d.storage, temp := leftover }
        loggedError := true }
  | WriteOutcome.failAtRename =>
      { disk := { storage := d.storage, temp := some (encodeEntries m) }
        loggedError := true }

/-- Response of the GET /pastes/:id branch of handleRequest, reduced to
the data it exposes: a 404, or a 200 page rendering the paste's content
and creation time. -/
inductive GetResult where
  | notFoundResp
  | pasteResp (content : String) (created : TimeVal)
deriving DecidableEq, Repr

/-- Model of the GET /pastes/:id branch: if (!pastes.has(id)) return 404;
otherwise render pastes.get(id)!.  No expiry check appears on this path. -/
def handleGetPaste (m : Store) (id : String) : GetResult :=
  if !(mapHas m id) then GetResult.notFoundResp
  else
    match mapGet m id with
    | some p => GetResult.pasteResp p.content p.created
    | none => GetResult.notFoundResp

/-- Expiry computation of the POST /pastes branch:
if (expirationHours && !isNaN(expirationHours)) set expiresAt to created
plus that many hours.  The value 0 is falsy in JS, so it yields no
expiry, exactly like an absent or unparseable field (modelled by none).
setHours arithmetic is modelled in a fixed-offset timezone, where adding
h hours adds h * 3600000 ms. -/
def computeExpiresAt (nowMs : Int) : Option Int → Option TimeVal
  | some h => if h ≠ 0 then some (TimeVal.date (nowMs + h * 3600000)) else none
  | none => none

/-- The paste record built by the POST /pastes branch. -/
def newPaste (content : String) (nowMs : Int) (expirationHours : Option Int) : Paste :=
  { content := content
    created := TimeVal.date nowMs
    expiresAt := computeExpiresAt nowMs expirationHours }

/-- Insertion performed by the POST /pastes branch: a single call to
generateId (no collision check, no retry) followed by pastes.set. -/
def createPaste (m : Store) (draws : List (Fin 36)) (content : String)
    (nowMs : Int) (expirationHours : Option Int) : Store × String :=
  let id := generateId draws 6
  (mapSet m id (newPaste content nowMs expirationHours), id)

/-- Response of the POST /pastes branch: 400 when content is empty,
otherwise a 302 redirect to the new paste. -/
inductive PostResult where
  | badRequest
  | redirect (id : String)
deriving DecidableEq, Repr

/-- Model of the POST /pastes branch of handleRequest: the empty-content
guard (!content, empty string being falsy), then createPaste, then the
redirect.  The debounced save it requests is a scheduling effect modelled
separately (DebState below). -/
def handlePostPastes (m : Store) (draws : List (Fin 36)) (content : String)
    (nowMs : Int) (expirationHours : Option Int) : Store × PostResult :=
  if content = "" then (m, PostResult.badRequest)
  else
    let r := createPaste m draws content nowMs expirationHours
    (r.1, PostResult.redirect r.2)

/-- Comparator of renderHomePage and renderPasteListPage:
(a, b) => b[1].created.getTime() - a[1].created.getTime(), i.e. descending
creation time, ties keeping original order (JS sort is stable). -/
def createdDescLe (a b : String × Paste) : Bool :=
  decide (b.2.created.ms ≤ a.2.created.ms)

/-- The sorted entry list shared by renderHomePage and
renderPasteListPage: Array.from(pastes.entries()).sort(...), newest
first.  Modelled with a stable merge sort, matching the stability of
Array.prototype.sort. -/
def sortedEntries (m : Store) : List (String × Paste) :=
  m.mergeSort createdDescLe

/-- Preview computation of the list pages: the first n characters followed
by an ellipsis when the content is longer than n (n = 50 on the home
page, 100 on the list page). -/
def previewOf (content : String) (n : Nat) : String :=
  if content.length > n then String.mk (content.toList.take n) ++ "..." else content

/-- The per-paste view data renderHomePage passes to the home template. -/
def renderHomePageItems (m : Store) : List (String × String) :=
  (sortedEntries m).map (fun e => (e.1, previewOf e.2.content 50))

/-- The per-paste view data renderPasteListPage passes to the list
template. -/
def renderPasteListItems (m : Store) : List (String × String) :=
  (sortedEntries m).map (fun e => (e.1, previewOf e.2.content 100))

/-- Debounce interval of debouncedSavePastes: setTimeout(..., 2000). -/
def debounceMs : Nat := 2000

/-- State of the debounce machinery in the single-threaded timed model
used for coalescing: the current index (σ), the absolute deadline of the
pending saveTimeout (none = Idle), and the snapshots savePastes has been
invoked with so far, in order. -/
structure DebState (σ : Type) where
  store : σ
  deadline : Option Nat
  flushes : List σ
deriving DecidableEq, Repr

/-- Timer expiry: if a pending saveTimeout has deadline ≤ t, its callback
runs before anything scheduled at t: savePastes snapshots the current
index and the machine returns to Idle. -/
def fireUpTo {σ : Type} (s : DebState σ) (t : Nat) : DebState σ :=
  match s.deadline with
  | some d =>
      if d ≤ t then { store := s.store, deadline := none, flushes := s.flushes ++ [s.store] }
      else s
  | none => s

/-- Model of a mutation at time t followed by debouncedSavePastes: any
timer that already expired has fired first; then clearTimeout cancels the
pending timer (if any) and a fresh one is armed at t + debounceMs. -/
def markAt {σ : Type} (s : DebState σ) (t : Nat) (newStore : σ) : DebState σ :=
  let s1 := fireUpTo s t
  { store := newStore, deadline := some (t + debounceMs), flushes := s1.flushes }

/-- Processes a time-ordered burst of mutations, each given as (time,
index state after the mutation). -/
def runMarks {σ : Type} (s : DebState σ) : List (Nat × σ) → DebState σ
  | [] => s
  | (t, st) :: rest => runMarks (markAt s t st) rest

/-- Lets the remaining pending timer, if any, fire. -/
def finishDebounce {σ : Type} (s : DebState σ) : DebState σ :=
  match s.deadline with
  | some _ => { store := s.store, deadline := none, flushes := s.flushes ++ [s.store] }
  | none => s

/-- Initial debounce state: Idle, nothing flushed yet. -/
def initDebounce {σ : Type} (σ0 : σ) : DebState σ :=
  { store := σ0, deadline := none, flushes := [] }

/-- The store state after the last mutation of a burst (dflt when the
burst is empty). -/
def lastStore {σ : Type} (dflt : σ) (marks : List (Nat × σ)) : σ :=
  (marks.getLast?.map (fun e => e.2)).getD dflt

/-- State of the flush system in the untimed event model used for the
in-flight-flush claims.  The index is abstracted to a version counter
that each mutation bumps; a flush snapshot is the version it serializes.
saveTimeout is the variable of the source; armed is the set of timers
actually scheduled and not yet fired or cancelled (clearTimeout on an
already-fired id is a no-op, so the variable can go stale); inflight are
the snapshot versions of savePastes calls whose disk I/O has started but
not finished; completed are the snapshot versions of finished flushes. -/
structure EvState where
  ver : Nat
  saveTimeout : Option Nat
  armed : List Nat
  nextId : Nat
  inflight : List Nat
  completed : List Nat
deriving DecidableEq, Repr

/-- Events of the flush system: a mutation followed by
debouncedSavePastes; expiry of a scheduled timer (its callback calls
savePastes, which snapshots the index synchronously and starts the disk
write); completion of an in-flight write (the callback resumes after the
await and executes saveTimeout = null). -/
inductive Ev where
  | mark
  | fire (tid : Nat)
  | complete (v : Nat)
deriving DecidableEq, Repr

/-- One step of the flush system.  On mark: the mutation bumps the
version, clearTimeout removes the timer named by saveTimeout from the
armed set if it is still armed (a no-op on a stale id), and a fresh timer
is armed and recorded in saveTimeout.  On fire of an armed timer: the
timer leaves the armed set and a flush of the current version starts.
On completion of an in-flight flush: it moves to completed and the
resuming callback overwrites saveTimeout with null, regardless of any
newer timer the variable pointed to. -/
def step (s : EvState) : Ev → EvState
  | Ev.mark =>
      let armed1 :=
        match s.saveTimeout with
        | some t => s.armed.erase t
        | none => s.armed
      { ver := s.ver + 1
        saveTimeout := some s.nextId
        armed := armed1 ++ [s.nextId]
        nextId := s.nextId + 1
        inflight := s.inflight
        completed := s.completed }
  | Ev.fire t =>
      if t ∈ s.armed then
        { s with armed := s.armed.erase t, inflight := s.inflight ++ [s.ver] }
      else s
  | Ev.complete v =>
      if v ∈ s.inflight then
        { s with inflight := s.inflight.erase v
                 completed := s.completed ++ [v]
                 saveTimeout := none }
      else s

/-- Runs the flush system over a sequence of events. -/
def runEvents (s : EvState) (evs : List Ev) : EvState :=
  evs.foldl step s

/-- A quiescent flush system: no timer armed, no write in flight. -/
def Quiescent (s : EvState) : Prop :=
  s.armed = [] ∧ s.inflight = []

instance (s : EvState) : Decidable (Quiescent s) := by
  unfold Quiescent; infer_instance

/-- From version m on, a flush at or past m is still guaranteed: a timer
is armed, or a sufficiently fresh flush is in flight or has completed. -/
def FlushGuaranteed (m : Nat) (s : EvState) : Prop :=
  s.armed ≠ [] ∨ (∃ v ∈ s.inflight, m ≤ v) ∨ (∃ v ∈ s.completed, m ≤ v)

/-! Helper lemmas about the Map model. -/

theorem mapGet_mapSet_self (m : Store) (k : String) (v : Paste) :
    mapGet (mapSet m k v) k = some v := by
  induction m with
  | nil => simp [mapSet, mapGet]
  | cons e rest ih =>
    cases hbe : (e.1 == k) with
    | true => simp [mapSet, hbe, mapGet]
    | false => simp [mapSet, hbe, mapGet, ih]

theorem mapHas_of_mapGet_eq_some {m : Store} {k : String} {p : Paste}
    (h : mapGet m k = some p) : mapHas m k = true := by
  induction m with
  | nil => simp [mapGet] at h
  | cons e rest ih =>
    cases hbe : (e.1 == k) with
    | true => simp [mapHas, hbe]
    | false =>
      simp only [mapGet, hbe, if_neg Bool.false_ne_true] at h
      simp [mapHas, hbe, ih h]

/-! Concrete states used by counterexamples and witnesses. -/

/-- A paste whose expiry (epoch instant 0) is in the past at time 1000. -/
def cexPaste : Paste :=
  { content := "hi", created := TimeVal.date 0, expiresAt := some (TimeVal.date 0) }

/-- A store holding only the expired paste under id "aaaaaa". -/
def cexStore : Store := [("aaaaaa", cexPaste)]

/-- A pre-existing paste under the id the generator is about to produce. -/
def cexOldPaste : Paste :=
  { content := "old", created := TimeVal.date 0, expiresAt := none }

/-- Random draws that make generateId produce "aaaaaa". -/
def cexDraws : List (Fin 36) := List.replicate 6 0

/-! Claim C1. -/

/-- C1 counterexample: in the store cexStore the paste under "aaaaaa" has
expiresAt ≤ now (now = 1000), yet the GET /pastes/:id branch does not
return NotFound: the handler checks only pastes.has(id) and never looks
at expiresAt, so the expired-but-unswept paste is served. -/
theorem c1_get_serves_expired_paste :
    mapGet cexStore "aaaaaa" = some cexPaste ∧
    specIsExpired cexPaste 1000 = true ∧
    handleGetPaste cexStore "aaaaaa" ≠ GetResult.notFoundResp := by
  decide

/-- C1 amended: Get(id) returns NotFound exactly when the id is absent
from the index; a present paste is served with its content and creation
time regardless of its expiresAt, until the sweeper physically evicts
it.  (The read path performs no expiry filtering.) -/
theorem c1_amended_get_ignores_expiry (m : Store) (id : String) (p : Paste)
    (h : mapGet m id = some p) :
    handleGetPaste m id = GetResult.pasteResp p.content p.created := by
  have hh := mapHas_of_mapGet_eq_some h
  simp [handleGetPaste, hh, h]

/-- Witness for the amended C1 theorem at the concrete expired store. -/
theorem c1_amended_witness :
    handleGetPaste cexStore "aaaaaa" = GetResult.pasteResp "hi" (TimeVal.date 0) :=
  c1_amended_get_ignores_expiry cexStore "aaaaaa" cexPaste (by decide)

/-! Claim C2. -/

/-- C2 counterexample: with the store already holding id "aaaaaa" and a
draw stream that makes generateId return "aaaaaa" again, Create performs
no retry: it issues one pastes.set, which overwrites the existing paste
(the old content "old" is gone, replaced by the new paste). -/
theorem c2_create_overwrites_on_collision :
    generateId cexDraws 6 = "aaaaaa" ∧
    (handlePostPastes [("aaaaaa", cexOldPaste)] cexDraws "new" 50 none).1
      = [("aaaaaa", newPaste "new" 50 none)] ∧
    newPaste "new" 50 none ≠ cexOldPaste := by
  decide

/-- C2 amended: Create calls generateId exactly once and inserts with
pastes.set without any membership check; the returned id is the single
generated id, and after the call that id maps to the new paste, silently
replacing any paste that previously held it. -/
theorem c2_amended_create_single_draw (m : Store) (draws : List (Fin 36))
    (content : String) (nowMs : Int) (eh : Option Int) (h : content ≠ "") :
    (handlePostPastes m draws content nowMs eh).2
      = PostResult.redirect (generateId draws 6) ∧
    mapGet (handlePostPastes m draws content nowMs eh).1 (generateId draws 6)
      = some (newPaste content nowMs eh) := by
  simp [handlePostPastes, h, createPaste, mapGet_mapSet_self]

/-- Witness for the amended C2 theorem on the colliding store. -/
theorem c2_amended_witness :
    (handlePostPastes [("aaaaaa", cexOldPaste)] cexDraws "new" 50 none).2
      = PostResult.redirect (generateId cexDraws 6) ∧
    mapGet (handlePostPastes [("aaaaaa", cexOldPaste)] cexDraws "new" 50 none).1
      (generateId cexDraws 6) = some (newPaste "new" 50 none) :=
  c2_amended_create_single_draw [("aaaaaa", cexOldPaste)] cexDraws "new" 50 none
    (by decide)

/-! Claim C7. -/

/-- C7 counterexample: Create("bye", ttlHours = 0) followed immediately by
Get on its id does not return NotFound: 0 is falsy in the guard
(expirationHours && !isNaN(expirationHours)), so the paste is stored with
no expiresAt at all, and the Get serves it. -/
theorem c7_ttl_zero_paste_is_served :
    handleGetPaste (handlePostPastes [] cexDraws "bye" 100 (some 0)).1 "aaaaaa"
      = GetResult.pasteResp "bye" (TimeVal.date 100) ∧
    mapGet (handlePostPastes [] cexDraws "bye" 100 (some 0)).1 "aaaaaa"
      = some { content := "bye", created := TimeVal.date 100, expiresAt := none } := by
  decide

/-- C7 amended: a ttl of 0 hours is treated as "no expiration": the
created paste carries no expiresAt, and an immediate Get on its id
returns the paste. -/
theorem c7_amended_ttl_zero_no_expiry (m : Store) (draws : List (Fin 36))
    (content : String) (nowMs : Int) (h : content ≠ "") :
    mapGet (handlePostPastes m draws content nowMs (some 0)).1 (generateId draws 6)
      = some { content := content, created := TimeVal.date nowMs, expiresAt := none } ∧
    handleGetPaste (handlePostPastes m draws content nowMs (some 0)).1 (generateId draws 6)
      = GetResult.pasteResp content (TimeVal.date nowMs) := by
  have h1 : mapGet (handlePostPastes m draws content nowMs (some 0)).1 (generateId draws 6)
      = some (newPaste content nowMs (some 0)) := by
    simp [handlePostPastes, h, createPaste, mapGet_mapSet_self]
  have h2 : newPaste content nowMs (some 0)
      = { content := content, created := TimeVal.date nowMs, expiresAt := none } := by
    simp [newPaste, computeExpiresAt]
  have hh := mapHas_of_mapGet_eq_some h1
  refine ⟨h2 ▸ h1, ?_⟩
  simp [handleGetPaste, hh, h1, newPaste, computeExpiresAt]

/-- Witness for the amended C7 theorem at a concrete creation. -/
theorem c7_amended_witness :
    mapGet (handlePostPastes [] cexDraws "bye" 100 (some 0)).1 (generateId cexDraws 6)
      = some { content := "bye", created := TimeVal.date 100, expiresAt := none } ∧
    handleGetPaste (handlePostPastes [] cexDraws "bye" 100 (some 0)).1 (generateId cexDraws 6)
      = GetResult.pasteResp "bye" (TimeVal.date 100) :=
  c7_amended_ttl_zero_no_expiry [] cexDraws "bye" 100 (by decide)

/-! Claim C5. -/

/-- C5: savePastes writes the encoded snapshot to the temp path and
commits solely through the rename: a failure at the temp write (whatever
partial content it leaves) keeps the storage file byte-identical to its
pre-write state and is logged; a failure at the rename likewise keeps the
old storage file; only the success path replaces the storage file, with
the whole encoded snapshot.  The function returns normally in every
case (the try/catch makes failures non-fatal). -/
theorem c5_temp_then_rename_is_atomic (d : DiskState) (m : Store)
    (leftover : Option Snapshot) :
    (savePastes d m (WriteOutcome.failAtTempWrite leftover)).disk.storage = d.storage ∧
    (savePastes d m (WriteOutcome.failAtTempWrite leftover)).loggedError = true ∧
    (savePastes d m WriteOutcome.failAtRename).disk.storage = d.storage ∧
    (savePastes d m WriteOutcome.success).disk
      = { storage := some (encodeEntries m), temp := none } :=
  ⟨rfl, rfl, rfl, rfl⟩

/-! Claim C6. -/

/-- Whether a TimeVal is a genuine Date object. -/
def TimeVal.isDate : TimeVal → Bool
  | TimeVal.date _ => true
  | TimeVal.isoStr _ => false

/-- C6 counterexample: a store with one paste carrying an expiry does not
survive the encode/decode round trip: the expiry comes back as the raw
ISO string (TimeVal.isoStr), not as a Date, so the decoded store differs
from the original. -/
theorem c6_roundtrip_fails_with_expiry :
    decodeEntries (encodeEntries cexStore) ≠ cexStore ∧
    decodeEntries (encodeEntries cexStore)
      = [("aaaaaa", { content := "hi", created := TimeVal.date 0,
                      expiresAt := some (TimeVal.isoStr 0) })] := by
  decide

/-- Round trip of a single record whose created field is a Date and which
carries no expiry. -/
theorem decodeRecord_encodePaste (p : Paste)
    (hc : p.created.isDate = true) (he : p.expiresAt = none) :
    decodeRecord (encodePaste p) = p := by
  cases p with
  | mk content created expiresAt =>
    cases created with
    | date ms =>
      simp only at he
      subst he
      rfl
    | isoStr ms => simp [TimeVal.isDate] at hc

/-- C6 amended: Decode(Encode(S)) = S holds exactly for the stores whose
pastes carry no expiresAt (id, content and created are preserved with
their millisecond values); when expiresAt is present its millisecond
value survives but its type degrades from Date to raw string, so full
equality fails. -/
theorem c6_amended_roundtrip_without_expiry (m : Store)
    (hc : ∀ e ∈ m, (e.2).created.isDate = true)
    (he : ∀ e ∈ m, (e.2).expiresAt = none) :
    decodeEntries (encodeEntries m) = m := by
  induction m with
  | nil => rfl
  | cons e rest ih =>
    have h1 := decodeRecord_encodePaste e.2 (hc e (List.mem_cons_self e rest))
      (he e (List.mem_cons_self e rest))
    have h2 := ih (fun x hx => hc x (List.mem_cons_of_mem e hx))
      (fun x hx => he x (List.mem_cons_of_mem e hx))
    simp [decodeEntries, encodeEntries] at h2 ⊢
    exact ⟨by rw [h1], h2⟩

/-- Witness for the amended C6 theorem on a concrete expiry-free store. -/
theorem c6_amended_witness :
    decodeEntries (encodeEntries [("aaaaaa", cexOldPaste)]) = [("aaaaaa", cexOldPaste)] :=
  c6_amended_roundtrip_without_expiry [("aaaaaa", cexOldPaste)]
    (by decide) (by decide)

/-! Claim C8. -/

/-- C8: a malformed snapshot file (JSON.parse throws) and an unreadable
one (read error other than NotFound) are both recovered locally: the
store starts as the empty Map, the error is logged on the console, and
loadPastes returns normally instead of aborting the process. -/
theorem c8_malformed_snapshot_recovers :
    loadPastes SnapFile.malformed = { store := [], loggedError := true } ∧
    loadPastes SnapFile.unreadable = { store := [], loggedError := true } :=
  ⟨rfl, rfl⟩

/-! Claim C9. -/

/-- C9 counterexample: the list pages do not filter expired entries: on
the store whose only paste is expired at now = 1000, the sorted entry
list still contains that paste and the home page renders it, where the
claim demands the empty sequence. -/
theorem c9_list_includes_expired :
    sortedEntries cexStore = [("aaaaaa", cexPaste)] ∧
    specIsExpired cexPaste 1000 = true ∧
    renderHomePageItems cexStore = [("aaaaaa", "hi")] := by
  have hs : sortedEntries cexStore = [("aaaaaa", cexPaste)] :=
    List.mergeSort_singleton _
  refine ⟨hs, by decide, ?_⟩
  simp only [renderHomePageItems, hs]
  decide

/-- C9 amended: the listing is a pure function of the current store state
that returns ALL pastes — expired ones included until the sweeper evicts
them — ordered by creation time descending (ties keep insertion order,
the sort being stable): the sorted entries are a permutation of the store
and pairwise sorted by the descending-creation comparator. -/
theorem c9_amended_lists_all_sorted (m : Store) :
    (sortedEntries m).Perm m ∧
    List.Pairwise (fun a b => createdDescLe a b = true) (sortedEntries m) := by
  refine ⟨List.mergeSort_perm m _, ?_⟩
  apply List.sorted_mergeSort
  · intro a b c hab hbc
    simp only [createdDescLe, decide_eq_true_eq] at hab hbc ⊢
    exact le_trans hbc hab
  · intro a b
    simp only [createdDescLe, Bool.or_eq_true, decide_eq_true_eq]
    exact le_total b.2.created.ms a.2.created.ms

/-! Claim C10. -/

/-- The sweeper's guard is false on every paste reconstructed by
loadPastes: an absent expiresAt is falsy, and a present one is the raw
ISO string, whose JS comparison against now is always false (NaN). -/
theorem jsExpiresCheck_decodeRecord (r : EncPaste) (nowMs : Int) :
    jsExpiresCheck (decodeRecord r) nowMs = false := by
  cases h : r.expiresAt <;> simp [decodeRecord, jsExpiresCheck, h, jsTimeLe]

/-- C10: loadPastes rebuilds only created as a Date and spreads expiresAt
through as the raw decoded string; consequently a sweep pass at any time
evicts none of the reloaded pastes, even those whose recorded expiry is
long past. -/
theorem c10_reloaded_pastes_never_swept (rs : Snapshot) (nowMs : Int) :
    decodeEntries rs = rs.map (fun e => (e.1,
      { content := e.2.content, created := TimeVal.date e.2.created,
        expiresAt := e.2.expiresAt.map TimeVal.isoStr })) ∧
    cleanupExpiredPastes (decodeEntries rs) nowMs = decodeEntries rs := by
  refine ⟨rfl, ?_⟩
  unfold cleanupExpiredPastes
  rw [List.filter_eq_self]
  intro a ha
  simp only [decodeEntries, List.mem_map] at ha
  obtain ⟨e, _, rfl⟩ := ha
  simp [jsExpiresCheck_decodeRecord]

/-! Claim C3. -/

theorem lastStore_cons {σ : Type} (dflt st : σ) (t : Nat) (rest : List (Nat × σ)) :
    lastStore dflt ((t, st) :: rest) = lastStore st rest := by
  cases rest with
  | nil => rfl
  | cons b l =>
    have hl : (b :: l).getLast? = some ((b :: l).getLast (by simp)) :=
      List.getLast?_eq_getLast _ _
    simp [lastStore, List.getLast?_cons_cons, hl]

theorem getLast_snd_eq_lastStore {σ : Type} (t : Nat) (st : σ) (rest : List (Nat × σ))
    (h : (t, st) :: rest ≠ []) :
    (((t, st) :: rest).getLast h).2 = lastStore st rest := by
  rw [← lastStore_cons st st t rest]
  rw [lastStore, List.getLast?_eq_getLast _ h]
  rfl

/-- While a timer is pending with deadline d and every mark of the burst
lands before the running deadline (each consecutive gap under the
debounce interval), no intermediate flush fires: the single flush happens
at the end and snapshots the store after the last mark. -/
theorem runMarks_pending {σ : Type} (marks : List (Nat × σ)) (s : DebState σ) (d : Nat)
    (hd : s.deadline = some d)
    (hhead : ∀ x ∈ marks.head?, x.1 < d)
    (hchain : List.Chain' (fun a b => b.1 < a.1 + debounceMs) marks) :
    (finishDebounce (runMarks s marks)).flushes = s.flushes ++ [lastStore s.store marks] := by
  induction marks generalizing s d with
  | nil => simp [runMarks, finishDebounce, hd, lastStore]
  | cons a rest ih =>
    obtain ⟨t, st⟩ := a
    have ha : t < d := hhead (t, st) rfl
    obtain ⟨hab, hrest⟩ := List.chain'_cons'.mp hchain
    have hfire : fireUpTo s t = s := by
      simp only [fireUpTo, hd]
      exact if_neg (by omega)
    have hmark : markAt s t st
        = { store := st, deadline := some (t + debounceMs), flushes := s.flushes } := by
      simp [markAt, hfire]
    have ihres := ih { store := st, deadline := some (t + debounceMs), flushes := s.flushes }
      (t + debounceMs) rfl hab hrest
    simp only [runMarks]
    rw [hmark, ihres, lastStore_cons]

/-- C3: starting from an Idle scheduler, a burst of N ≥ 1 mutations whose
consecutive dirty-marks each arrive strictly within one debounce interval
of the previous one produces exactly one savePastes invocation, and its
snapshot is the store state after the final mutation: the flush list is
the one-element list holding the last marked state. -/
theorem c3_burst_coalesces_to_one_flush {σ : Type} (σ0 : σ) (marks : List (Nat × σ))
    (hne : marks ≠ [])
    (hchain : List.Chain' (fun a b => b.1 < a.1 + debounceMs) marks) :
    (finishDebounce (runMarks (initDebounce σ0) marks)).flushes
      = [(marks.getLast hne).2] := by
  cases marks with
  | nil => exact absurd rfl hne
  | cons a rest =>
    obtain ⟨t, st⟩ := a
    obtain ⟨hab, hrest⟩ := List.chain'_cons'.mp hchain
    have hmark : markAt (initDebounce σ0) t st
        = { store := st, deadline := some (t + debounceMs), flushes := [] } := rfl
    have hmain := runMarks_pending rest
      { store := st, deadline := some (t + debounceMs), flushes := [] }
      (t + debounceMs) rfl hab hrest
    simp only [runMarks]
    rw [hmark, hmain, getLast_snd_eq_lastStore]
    simp

/-- Witness for C3: three mutations at times 0, 1000 and 1500 (gaps 1000
and 500, both under the 2000 ms debounce) yield exactly one flush, of the
final state 3. -/
theorem c3_witness :
    (finishDebounce (runMarks (initDebounce (0 : Nat))
      [(0, 1), (1000, 2), (1500, 3)])).flushes = [3] := by
  have h := c3_burst_coalesces_to_one_flush (0 : Nat) [(0, 1), (1000, 2), (1500, 3)]
    (by simp)
    (by
      refine List.chain'_cons.mpr ⟨by norm_num [debounceMs], ?_⟩
      refine List.chain'_cons.mpr ⟨by norm_num [debounceMs], ?_⟩
      exact List.chain'_singleton _)
  simpa using h

/-! Claim C4. -/

/-- One step of the flush system preserves the guarantee that a flush at
or past version m is still coming, provided the version is already at
least m. -/
theorem stepFlushGuaranteed (m : Nat) (s : EvState) (e : Ev)
    (hver : m ≤ s.ver) (h : FlushGuaranteed m s) :
    m ≤ (step s e).ver ∧ FlushGuaranteed m (step s e) := by
  cases e with
  | mark =>
    refine ⟨by simp [step]; omega, Or.inl ?_⟩
    simp [step]
  | fire t =>
    by_cases ht : t ∈ s.armed
    · refine ⟨by simpa [step, ht] using hver, Or.inr (Or.inl ⟨s.ver, ?_, ?_⟩)⟩
      · simp [step, ht]
      · simpa [step, ht] using hver
    · simpa [step, ht] using ⟨hver, h⟩
  | complete v =>
    by_cases hv : v ∈ s.inflight
    · refine ⟨by simpa [step, hv] using hver, ?_⟩
      rcases h with ha | ⟨w, hw, hmw⟩ | ⟨w, hw, hmw⟩
      · exact Or.inl (by simpa [step, hv] using ha)
      · by_cases hwv : w = v
        · subst hwv
          exact Or.inr (Or.inr ⟨w, by simp [step, hv], hmw⟩)
        · exact Or.inr (Or.inl ⟨w, by simp [step, hv, List.mem_erase_of_ne hwv, hw], hmw⟩)
      · exact Or.inr (Or.inr ⟨w, by simp [step, hv, hw], hmw⟩)
    · simpa [step, hv] using ⟨hver, h⟩

/-- The guarantee is preserved along any event sequence. -/
theorem runEventsFlushGuaranteed (m : Nat) (s : EvState) (evs : List Ev)
    (hver : m ≤ s.ver) (h : FlushGuaranteed m s) :
    m ≤ (runEvents s evs).ver ∧ FlushGuaranteed m (runEvents s evs) := by
  induction evs generalizing s with
  | nil => exact ⟨hver, h⟩
  | cons e rest ih =>
    have h1 := stepFlushGuaranteed m s e hver h
    simpa [runEvents] using ih (step s e) h1.1 h1.2

/-- C4: a dirty-mark arriving while a flush is writing to disk is never
lost.  The mark bumps the version to ver + 1 and arms a fresh timer (the
stale saveTimeout handle makes clearTimeout a no-op, and the later
saveTimeout = null of the resuming flush callback cannot disarm an armed
timer).  Hence in every execution that the event system runs to
quiescence, some completed flush carries a snapshot version at or past
the mark — a flush distinct from every flush that was in flight when the
mark arrived, all of which snapshot earlier versions. -/
theorem c4_mark_during_flight_not_lost (s0 : EvState) (evs : List Ev)
    (_hin : s0.inflight ≠ [])
    (hbound : ∀ v ∈ s0.inflight, v ≤ s0.ver)
    (hq : Quiescent (runEvents (step s0 Ev.mark) evs)) :
    ∃ v ∈ (runEvents (step s0 Ev.mark) evs).completed,
      s0.ver + 1 ≤ v ∧ v ∉ s0.inflight := by
  have hstart1 : s0.ver + 1 ≤ (step s0 Ev.mark).ver := by simp [step]
  have hstart2 : FlushGuaranteed (s0.ver + 1) (step s0 Ev.mark) := Or.inl (by simp [step])
  obtain ⟨hver, hg⟩ := runEventsFlushGuaranteed (s0.ver + 1) _ evs hstart1 hstart2
  rcases hg with ha | ⟨v, hv, hmv⟩ | ⟨v, hv, hmv⟩
  · exact absurd hq.1 ha
  · rw [hq.2] at hv
    exact absurd hv (List.not_mem_nil v)
  · refine ⟨v, hv, hmv, fun hvin => ?_⟩
    have := hbound v hvin
    omega

/-- Concrete scenario for C4: version 1 is in flight when the mark
arrives; the in-flight flush completes, the fresh timer fires and its
flush of the post-mark state completes. -/
def c4s0 : EvState :=
  { ver := 1, saveTimeout := some 0, armed := [], nextId := 1,
    inflight := [0], completed := [] }

/-- Witness for C4 on the concrete scenario: the trace reaches quiescence
and its completed flushes include version 2, the state as of the mark. -/
theorem c4_witness :
    c4s0.inflight ≠ [] ∧
    (∀ v ∈ c4s0.inflight, v ≤ c4s0.ver) ∧
    Quiescent (runEvents (step c4s0 Ev.mark) [Ev.complete 0, Ev.fire 1, Ev.complete 2]) ∧
    ∃ v ∈ (runEvents (step c4s0 Ev.mark) [Ev.complete 0, Ev.fire 1, Ev.complete 2]).completed,
      c4s0.ver + 1 ≤ v ∧ v ∉ c4s0.inflight :=
  ⟨by decide, by decide, by decide,
    c4_mark_during_flight_not_lost c4s0 [Ev.complete 0, Ev.fire 1, Ev.complete 2]
      (by decide) (by decide) (by decide)⟩

end Localbin
